import Mathlib

/-!
Verification development for the `StreamingMessageParser` of this repository
(`app/lib/runtime/message-parser`-style module, given as `src/unnamed/part_002`).

The parser is embedded shallowly:
* JS strings become `List Char`; string indices become `Nat`.
* The per-message mutable state object becomes the structure `MessageState`.
* The parser's callbacks (`onArtifactOpen`, `onActionOpen`, `onActionStream`,
  `onActionClose`, `onArtifactClose`) become an explicit event trace
  (`ParseEvent`), returned in document order.
* A thrown JS exception (the explicit `throw new Error(...)` calls of
  `#parseActionTag`, the `TypeError` raised by `currentAction.filePath.endsWith`
  when `filePath` is `undefined`, and the `unreachable(...)` guard) becomes
  `Except.error` with a `ParseError` tag.  On a throw the JS `state.position`
  field has not yet been updated (the update is the last line of `parse`), so a
  failed call leaves the stored cursor unchanged; the embedding mirrors this by
  not producing a new state on `Except.error`.
* `JSON.parse` is a platform builtin, not repository code; it is modelled as a
  parameter `jp : List Char → Option J` (`none` = the builtin throws, i.e.
  malformed JSON; `some v` = the parsed value), exactly matching the
  `try/catch` use sites.
* The `while` loop of `parse` is modelled by fuel recursion (`parseLoop`); the
  top-level `parse` supplies `input.length + 1` fuel, which is enough because
  every loop iteration that does not exit strictly advances the cursor.
  Running out of fuel behaves like the loop exiting.
* JS `undefined` for an optional string becomes `Option.none`; a JS object
  field that is absent is also `none` (the code only distinguishes the two via
  `'type' in currentAction`, always conjoined with `=== 'file'`, so the
  collapse is observationally faithful).
-/

set_option maxRecDepth 100000

deriving instance DecidableEq for Except

namespace MessageParser

/-- ASCII part of the JS whitespace class `\s` (also used by `String.trim`). -/
def isJsSpace (c : Char) : Bool :=
  c == ' ' || c == '\t' || c == '\n' || c == '\r' || c == '\x0b' || c == '\x0c'

/-- JS word character class `\w` = `[A-Za-z0-9_]`. -/
def isWordChar (c : Char) : Bool :=
  c.isAlpha || c.isDigit || c == '_'

/-- JS `s.slice(a, b)` for `0 ≤ a ≤ b` (clamped at the end of the string). -/
def strSlice (s : List Char) (a b : Nat) : List Char :=
  (s.drop a).take (b - a)

/-- JS `s.startsWith(pat, i)`. -/
def startsWithAt (pat s : List Char) (i : Nat) : Bool :=
  pat.isPrefixOf (s.drop i)

/-- Position of the first occurrence of `pat` in `s` (nonempty `pat`). -/
def firstPrefixPos (pat : List Char) : List Char → Option Nat
  | [] => if pat.isPrefixOf ([] : List Char) then some 0 else none
  | c :: tl =>
    if pat.isPrefixOf (c :: tl) then some 0
    else (firstPrefixPos pat tl).map (· + 1)

/-- JS `s.indexOf(pat, i)` for a nonempty `pat`; `none` plays the role of `-1`. -/
def indexOfFrom (pat s : List Char) (i : Nat) : Option Nat :=
  (firstPrefixPos pat (s.drop i)).map (· + i)

/-- Splits `s` at the first occurrence of `pat`: returns the part before the
occurrence and the part after it (the occurrence itself removed). -/
def splitFirst (pat : List Char) : List Char → Option (List Char × List Char)
  | [] => if pat.isPrefixOf ([] : List Char) then some ([], []) else none
  | c :: tl =>
    if pat.isPrefixOf (c :: tl) then some ([], (c :: tl).drop pat.length)
    else
      match splitFirst pat tl with
      | some (a, b) => some (c :: a, b)
      | none => none

/-- JS `String.prototype.trim` (ASCII whitespace). -/
def trimList (s : List Char) : List Char :=
  ((s.dropWhile isJsSpace).reverse.dropWhile isJsSpace).reverse

/-- Fuelled worker for `replaceAll`. -/
def replaceAllAux (pat rep : List Char) : Nat → List Char → List Char
  | 0, s => s
  | _, [] => []
  | fuel + 1, c :: tl =>
    if pat.isPrefixOf (c :: tl) then rep ++ replaceAllAux pat rep fuel ((c :: tl).drop pat.length)
    else c :: replaceAllAux pat rep fuel tl

/-- JS `s.replace(/pat/g, rep)` for a literal nonempty `pat`: leftmost,
non-overlapping occurrences, replacement text never rescanned. -/
def replaceAll (pat rep s : List Char) : List Char :=
  replaceAllAux pat rep s.length s

def AMP_LT : List Char := "&lt;".data
def AMP_GT : List Char := "&gt;".data
def LT_STR : List Char := "<".data
def GT_LIST : List Char := ">".data

/-- Source `cleanEscapedTags`: unescape `&lt;` and `&gt;` (in that order). -/
def cleanEscapedTags (content : List Char) : List Char :=
  replaceAll AMP_GT GT_LIST (replaceAll AMP_LT LT_STR content)

/-- Matches the regex tail `\s*` ++ three backticks ++ `\s*$` (the close of a
markdown fence).  The greedy `\s*` runs are forced since a backtick is not
whitespace. -/
def isFenceClose (s : List Char) : Bool :=
  match s.dropWhile isJsSpace with
  | '`' :: '`' :: '`' :: rest => rest.all isJsSpace
  | _ => false

/-- Lazy search of the regex `([\s\S]*?)` capture: the shortest prefix of `s`
that is followed by a newline whose tail matches the fence close. -/
def findCloseSplit : List Char → Option (List Char)
  | [] => none
  | c :: tl =>
    if c == '\n' && isFenceClose tl then some []
    else (findCloseSplit tl).map (c :: ·)

/-- Source `cleanoutMarkdownSyntax`: match
`^\s*` ++ three backticks ++ `\w*\n([\s\S]*?)\n\s*` ++ three backticks ++ `\s*$`
against the whole content and return the capture on success, the content
unchanged otherwise.  The greedy `\s*` and `\w*` runs are forced (a backtick
is neither whitespace nor a word character, a newline is not a word
character), and the lazy capture is the shortest one. -/
def cleanoutMarkdownSyntax (content : List Char) : List Char :=
  match content.dropWhile isJsSpace with
  | '`' :: '`' :: '`' :: rest1 =>
    match rest1.dropWhile isWordChar with
    | '\n' :: rest2 =>
      match findCloseSplit rest2 with
      | some cap => cap
      | none => content
    | _ => content
  | _ => content

/-- Case fold used by the `i` regex flag (attribute names are ASCII). -/
def ciPrefix : List Char → List Char → Bool
  | [], _ => true
  | _ :: _, [] => false
  | p :: ps, c :: cs => p.toLower == c.toLower && ciPrefix ps cs

/-- Worker for `extractAttribute`: try every start position left to right; at a
position where `name="` matches case-insensitively, the value runs to the next
double quote, which must exist for the regex to match there. -/
def extractAttributeAux (pat : List Char) : List Char → Option (List Char)
  | [] => none
  | c :: tl =>
    if ciPrefix pat (c :: tl) then
      match splitFirst ['"'] ((c :: tl).drop pat.length) with
      | some (v, _) => some v
      | none => extractAttributeAux pat tl
    else extractAttributeAux pat tl

/-- Source `#extractAttribute(tag, attributeName)`: first match of the regex
`attributeName="([^"]*)"` with the `i` flag; `none` plays `undefined`. -/
def extractAttribute (tag name : List Char) : Option (List Char) :=
  extractAttributeAux (name ++ ['=', '"']) tag

/-- JS `x || ''` on an optional string (`undefined` and `''` both give `''`). -/
def orEmpty (o : Option (List Char)) : List Char := o.getD []

/-- JS falsiness of a `string | undefined` value: `undefined` or `''`. -/
def strFalsy (o : Option (List Char)) : Bool :=
  match o with
  | none => true
  | some [] => true
  | some (_ :: _) => false

/-- JS `s.split(',')`. -/
def splitComma : List Char → List (List Char)
  | [] => [[]]
  | c :: tl =>
    if c == ',' then [] :: splitComma tl
    else
      match splitComma tl with
      | h :: t => (c :: h) :: t
      | [] => [[c]]

/-- JS `s.split(',').map((x) => x.trim())`. -/
def splitTrim (s : List Char) : List (List Char) :=
  (splitComma s).map trimList

def hexDigit (n : Nat) : Char :=
  if n < 10 then Char.ofNat ('0'.toNat + n) else Char.ofNat ('a'.toNat + (n - 10))

/-- Escape of one character inside a JSON string literal (ASCII portion of
`JSON.stringify`). -/
def jsonEscapeChar (c : Char) : List Char :=
  if c == '"' then ['\\', '"']
  else if c == '\\' then ['\\', '\\']
  else if c == '\n' then ['\\', 'n']
  else if c == '\r' then ['\\', 'r']
  else if c == '\t' then ['\\', 't']
  else if c == '\x08' then ['\\', 'b']
  else if c == '\x0c' then ['\\', 'f']
  else if c.toNat < 32 then ['\\', 'u', '0', '0', hexDigit (c.toNat / 16), hexDigit (c.toNat % 16)]
  else [c]

/-- JS `JSON.stringify` applied to a string. -/
def jsStringify (s : List Char) : List Char :=
  '"' :: (s.map jsonEscapeChar).flatten ++ ['"']

/-- Source `camelToDashCase`: global replace of `([a-z])([A-Z])` by `$1-$2`,
then lowercase. -/
def camelToDashCase : List Char → List Char
  | [] => []
  | [c] => [c.toLower]
  | a :: b :: tl =>
    if a.isLower && b.isUpper then a.toLower :: '-' :: camelToDashCase (b :: tl)
    else a.toLower :: camelToDashCase (b :: tl)

/-! Tag constants of the source module. -/

def ARTIFACT_TAG_OPEN : List Char := "<boltArtifact".data
def ARTIFACT_TAG_CLOSE : List Char := "</boltArtifact>".data
def ARTIFACT_ACTION_TAG_OPEN : List Char := "<boltAction".data
def ARTIFACT_ACTION_TAG_CLOSE : List Char := "</boltAction>".data
def BOLT_QUICK_ACTIONS_OPEN : List Char := "<bolt-quick-actions>".data
def BOLT_QUICK_ACTIONS_CLOSE : List Char := "</bolt-quick-actions>".data
def QUICK_ACTION_ITEM_OPEN : List Char := "<bolt-quick-action".data
def QUICK_ACTION_ITEM_CLOSE : List Char := "</bolt-quick-action>".data

/-! Attribute names and `type` attribute values used by the parser. -/

def ATTR_TYPE : List Char := "type".data
def ATTR_MESSAGE : List Char := "message".data
def ATTR_PATH : List Char := "path".data
def ATTR_HREF : List Char := "href".data
def ATTR_TITLE : List Char := "title".data
def ATTR_ID : List Char := "id".data
def ATTR_OPERATION : List Char := "operation".data
def ATTR_FILE_PATH : List Char := "filePath".data
def ATTR_SCREEN_ID : List Char := "screenId".data
def ATTR_SCREEN_NAME : List Char := "screenName".data
def ATTR_SCREEN_TYPE : List Char := "screenType".data
def ATTR_PARENT_SCREEN : List Char := "parentScreen".data
def ATTR_NAVIGATION_TRIGGER : List Char := "navigationTrigger".data
def ATTR_DEPENDENCIES : List Char := "dependencies".data
def ATTR_PROPS : List Char := "props".data
def ATTR_FROM_SCREEN : List Char := "fromScreen".data
def ATTR_TO_SCREEN : List Char := "toScreen".data
def ATTR_TRIGGER : List Char := "trigger".data
def ATTR_NAVIGATION_TYPE : List Char := "navigationType".data
def ATTR_PARAMS : List Char := "params".data
def ATTR_COMPONENT_NAME : List Char := "componentName".data
def ATTR_COMPONENT_TYPE : List Char := "componentType".data
def ATTR_USED_BY_SCREENS : List Char := "usedByScreens".data
def ATTR_EXPORTS : List Char := "exports".data
def ATTR_IMPORTS : List Char := "imports".data

def TYPE_FILE : List Char := "file".data
def TYPE_SHELL : List Char := "shell".data
def TYPE_START : List Char := "start".data
def TYPE_BUILD : List Char := "build".data
def TYPE_SUPABASE : List Char := "supabase".data
def TYPE_SCREEN : List Char := "screen".data
def TYPE_NAVIGATION : List Char := "navigation".data
def TYPE_COMPONENT : List Char := "component".data
def TYPE_MIGRATION : List Char := "migration".data
def TYPE_QUERY : List Char := "query".data

def MD_SUFFIX : List Char := ".md".data

/-! Data model. -/

/-- Source `BoltArtifactData`: the attributes captured from a container-open tag;
each may be `undefined` when the attribute is absent. -/
structure ArtifactData where
  id : Option (List Char)
  title : Option (List Char)
  type : Option (List Char)
deriving DecidableEq, Repr

/-- One action record, as built by `#parseActionTag` and mutated during the
scan.  The JS object carries only the fields its `type` branch assigns; a
field that is never assigned (or assigned `undefined`) is `none` here.
`J` is the codomain of the modelled `JSON.parse`. -/
structure ActionRecord (J : Type) where
  type : Option (List Char) := none
  content : List Char := []
  filePath : Option (List Char) := none
  operation : Option (List Char) := none
  screenId : Option (List Char) := none
  screenName : Option (List Char) := none
  screenType : Option (List Char) := none
  parentScreen : Option (List Char) := none
  navigationTrigger : Option (List Char) := none
  dependencies : Option (List (List Char)) := none
  props : Option J := none
  fromScreen : Option (List Char) := none
  toScreen : Option (List Char) := none
  trigger : Option (List Char) := none
  navigationType : Option (List Char) := none
  params : Option J := none
  componentName : Option (List Char) := none
  componentType : Option (List Char) := none
  usedByScreens : Option (List (List Char)) := none
  exports : Option (List (List Char)) := none
  imports : Option (List (List Char)) := none
deriving DecidableEq, Repr

/-- One callback invocation, in the order the callbacks fire.  The numeric
action id is the value the source renders with `String(...)` (decimal). -/
inductive ParseEvent (J : Type) where
  | artifactOpen (messageId : List Char) (artifact : ArtifactData)
  | artifactClose (messageId : List Char) (artifact : ArtifactData)
  | actionOpen (artifactId : Option (List Char)) (messageId : List Char)
      (actionId : Nat) (action : ActionRecord J)
  | actionStream (artifactId : Option (List Char)) (messageId : List Char)
      (actionId : Nat) (action : ActionRecord J)
  | actionClose (artifactId : Option (List Char)) (messageId : List Char)
      (actionId : Nat) (action : ActionRecord J)
deriving DecidableEq, Repr

/-- The exceptions `parse` can raise: the explicit `throw new Error(...)`
calls of `#parseActionTag`, the `TypeError` from calling `.endsWith` on an
`undefined` `filePath`, and the `unreachable('Artifact not initialized')`
guard. -/
inductive ParseError where
  | invalidSupabaseOperation
  | migrationRequiresFilePath
  | screenMissingRequired
  | navigationMissingRequired
  | componentMissingRequired
  | filePathUndefinedTypeError
  | artifactNotInitialized
deriving DecidableEq, Repr

/-- The per-message `MessageState` of the source; `position` is the stored
cursor. -/
structure MessageState (J : Type) where
  position : Nat := 0
  insideArtifact : Bool := false
  insideAction : Bool := false
  currentArtifact : Option ArtifactData := none
  currentAction : ActionRecord J := {}
  actionId : Nat := 0
deriving DecidableEq, Repr

/-- The state lazily created on the first `parse` call for a message id. -/
def initialMessageState (J : Type) : MessageState J := {}

/-! Output markup builders. -/

def QA_BTN_HEAD : List Char :=
  "<button class=\"__boltQuickAction__\" data-bolt-quick-action=\"true\" data-type=".data
def QA_DATA_MESSAGE : List Char := " data-message=".data
def QA_DATA_PATH : List Char := " data-path=".data
def QA_DATA_HREF : List Char := " data-href=".data
def QA_BTN_TAIL : List Char := "</button>".data
def QA_GROUP_HEAD : List Char :=
  "<div class=\"__boltQuickAction__\" data-bolt-quick-action=\"true\">".data
def QA_GROUP_TAIL : List Char := "</div>".data
def ART_DIV_HEAD : List Char := "<div class=\"__boltArtifact__\" data-".data
def ART_DIV_TAIL : List Char := "></div>".data
def MESSAGE_ID_KEY : List Char := "messageId".data

/-- Source `createQuickActionElement` with the props record already built
(`Object.entries` order: type, message, path, href; the keys contain no
camel case, so `camelToDashCase` leaves them unchanged). -/
def createQuickActionElement (ty msg path href label : List Char) : List Char :=
  QA_BTN_HEAD ++ jsStringify ty
    ++ QA_DATA_MESSAGE ++ jsStringify msg
    ++ QA_DATA_PATH ++ jsStringify path
    ++ QA_DATA_HREF ++ jsStringify href
    ++ GT_LIST ++ label ++ QA_BTN_TAIL

/-- Source `createQuickActionGroup`. -/
def createQuickActionGroup (buttons : List (List Char)) : List Char :=
  QA_GROUP_HEAD ++ buttons.flatten ++ QA_GROUP_TAIL

/-- Source `createArtifactElement` (the default `artifactElement` factory);
its single data attribute comes from the `messageId` prop. -/
def createArtifactElement (messageId : List Char) : List Char :=
  ART_DIV_HEAD ++ camelToDashCase MESSAGE_ID_KEY ++ ('=' :: jsStringify messageId)
    ++ ART_DIV_TAIL

/-- Fuelled worker for `quickItems`: the global regex
`<bolt-quick-action([^>]*)>([\s\S]*?)</bolt-quick-action>` executed repeatedly.
A failed match attempt moves the start position one character forward; a
successful match continues after the close tag. -/
def quickItemsAux : Nat → List Char → List (List Char × List Char)
  | 0, _ => []
  | _, [] => []
  | fuel + 1, c :: tl =>
    if QUICK_ACTION_ITEM_OPEN.isPrefixOf (c :: tl) then
      let after := (c :: tl).drop QUICK_ACTION_ITEM_OPEN.length
      let tagAttrs := after.takeWhile (fun ch => ch != '>')
      match after.drop tagAttrs.length with
      | '>' :: body =>
        match splitFirst QUICK_ACTION_ITEM_CLOSE body with
        | some (label, rest2) => (tagAttrs, label) :: quickItemsAux fuel rest2
        | none => quickItemsAux fuel tl
      | _ => quickItemsAux fuel tl
    else quickItemsAux fuel tl

/-- All `(attrs, label)` pairs the quick-action regex finds in a block. -/
def quickItems (s : List Char) : List (List Char × List Char) :=
  quickItemsAux s.length s

/-! Action-open tag parsing (`#parseActionTag`). -/

/-- JS `if (x)` on the optional JSON attribute text followed by the guarded
`try { JSON.parse } catch`: the field is assigned only when the attribute is
truthy and the parse succeeds. -/
def jsonField (J : Type) (jp : List Char → Option J) (o : Option (List Char)) : Option J :=
  match o with
  | some p => if p = [] then none else jp p
  | none => none

/-- JS `if (x)` on an optional comma-list attribute: split and trim when
truthy, leave the field absent otherwise. -/
def listField (o : Option (List Char)) : Option (List (List Char)) :=
  match o with
  | some d => if d = [] then none else some (splitTrim d)
  | none => none

/-- The `actionType === 'supabase'` branch of `#parseActionTag`. -/
def supabaseAttrs (J : Type) (actionTag : List Char) (base : ActionRecord J) :
    Except ParseError (ActionRecord J) :=
  match extractAttribute actionTag ATTR_OPERATION with
  | none => .error .invalidSupabaseOperation
  | some op =>
    if op = TYPE_MIGRATION ∨ op = TYPE_QUERY then
      let r1 := { base with operation := some op }
      if op = TYPE_MIGRATION then
        match extractAttribute actionTag ATTR_FILE_PATH with
        | none => .error .migrationRequiresFilePath
        | some [] => .error .migrationRequiresFilePath
        | some (c :: fp) => .ok { r1 with filePath := some (c :: fp) }
      else .ok r1
    else .error .invalidSupabaseOperation

/-- The `actionType === 'screen'` branch of `#parseActionTag`. -/
def screenAttrs (J : Type) (jp : List Char → Option J) (actionTag : List Char)
    (base : ActionRecord J) : Except ParseError (ActionRecord J) :=
  let screenId := extractAttribute actionTag ATTR_SCREEN_ID
  let screenName := extractAttribute actionTag ATTR_SCREEN_NAME
  let screenType := extractAttribute actionTag ATTR_SCREEN_TYPE
  let parentScreen := extractAttribute actionTag ATTR_PARENT_SCREEN
  let navigationTrigger := extractAttribute actionTag ATTR_NAVIGATION_TRIGGER
  if strFalsy screenId || strFalsy screenName || strFalsy screenType then
    .error .screenMissingRequired
  else
    .ok { base with
      screenId := screenId, screenName := screenName, screenType := screenType,
      parentScreen := parentScreen, navigationTrigger := navigationTrigger,
      dependencies := listField (extractAttribute actionTag ATTR_DEPENDENCIES),
      props := jsonField J jp (extractAttribute actionTag ATTR_PROPS) }

/-- The `actionType === 'navigation'` branch of `#parseActionTag`. -/
def navigationAttrs (J : Type) (jp : List Char → Option J) (actionTag : List Char)
    (base : ActionRecord J) : Except ParseError (ActionRecord J) :=
  let fromScreen := extractAttribute actionTag ATTR_FROM_SCREEN
  let toScreen := extractAttribute actionTag ATTR_TO_SCREEN
  let trigger := extractAttribute actionTag ATTR_TRIGGER
  let navigationType := extractAttribute actionTag ATTR_NAVIGATION_TYPE
  if strFalsy fromScreen || strFalsy toScreen || strFalsy trigger || strFalsy navigationType then
    .error .navigationMissingRequired
  else
    .ok { base with
      fromScreen := fromScreen, toScreen := toScreen, trigger := trigger,
      navigationType := navigationType,
      params := jsonField J jp (extractAttribute actionTag ATTR_PARAMS) }

/-- The `actionType === 'component'` branch of `#parseActionTag`. -/
def componentAttrs (J : Type) (actionTag : List Char) (base : ActionRecord J) :
    Except ParseError (ActionRecord J) :=
  let componentName := extractAttribute actionTag ATTR_COMPONENT_NAME
  let componentType := extractAttribute actionTag ATTR_COMPONENT_TYPE
  if strFalsy componentName || strFalsy componentType then
    .error .componentMissingRequired
  else
    .ok { base with
      componentName := componentName, componentType := componentType,
      usedByScreens := listField (extractAttribute actionTag ATTR_USED_BY_SCREENS),
      exports := listField (extractAttribute actionTag ATTR_EXPORTS),
      imports := listField (extractAttribute actionTag ATTR_IMPORTS) }

/-- Source `#parseActionTag(input, actionOpenIndex, actionEndIndex)`.  Unknown
action types (including an absent `type` attribute) only produce a logged
warning, so the bare record is returned for them. -/
def parseActionTag (J : Type) (jp : List Char → Option J) (input : List Char)
    (actionOpenIndex actionEndIndex : Nat) : Except ParseError (ActionRecord J) :=
  let actionTag := strSlice input actionOpenIndex (actionEndIndex + 1)
  let actionType := extractAttribute actionTag ATTR_TYPE
  let base : ActionRecord J := { type := actionType, content := [] }
  if actionType = some TYPE_SUPABASE then supabaseAttrs J actionTag base
  else if actionType = some TYPE_FILE then
    .ok { base with filePath := extractAttribute actionTag ATTR_FILE_PATH }
  else if actionType = some TYPE_SCREEN then screenAttrs J jp actionTag base
  else if actionType = some TYPE_NAVIGATION then navigationAttrs J jp actionTag base
  else if actionType = some TYPE_COMPONENT then componentAttrs J actionTag base
  else .ok base

/-! The scanning loop of `parse`. -/

/-- Result of the inner container-open matching loop (the `while` loop that
builds `potentialTag`), phrased relative to the scan start `i`:
* `advance k` — the buffered text was flushed verbatim (`output += slice(i, i+k)`,
  `i := i + k`): either a mismatch partway through the marker, or the full
  marker followed by a character that is neither `>` nor a space;
* `openAt g` — the full marker matched and the tag's closing `>` sits at
  offset `g` from `i`;
* `noGt` — the full marker matched but no `>` follows (`earlyBreak`);
* `waitEnd` — the input ended while still matching the marker's prefix
  (stop without consuming, the next chunk may complete it). -/
inductive TagScan where
  | advance (k : Nat)
  | openAt (g : Nat)
  | noGt
  | waitEnd
deriving DecidableEq, Repr

/-- Search for the tag's closing `>` (`input.indexOf('>', j)` where `j` is the
index of the marker's last character, which is `t`, never `>`); `k` is the
number of characters already matched, `rest` the input after them. -/
def scanGt (rest : List Char) (k : Nat) : TagScan :=
  match firstPrefixPos ['>'] rest with
  | some m => .openAt (k + m)
  | none => .noGt

/-- One-by-one comparison of the input against the container-open marker,
`k` characters already matched. -/
def scanTagGo : List Char → List Char → Nat → TagScan
  | [], rest, k =>
    match rest with
    | c :: _ => if c ≠ '>' ∧ c ≠ ' ' then .advance k else scanGt rest k
    | [] => scanGt rest k
  | _ :: _, [], _ => .waitEnd
  | t :: ts, r :: rs, k => if r = t then scanTagGo ts rs (k + 1) else .advance (k + 1)

/-- The container-open matching loop started at position `i`. -/
def scanTag (input : List Char) (i : Nat) : TagScan :=
  scanTagGo ARTIFACT_TAG_OPEN (input.drop i) 0

/-- Outcome of one iteration of the `while` loop of `parse`: keep looping
(`continue` or fall-through), `break`, or a thrown exception. -/
inductive StepOut (J : Type) where
  | cont (out : List Char) (evs : List (ParseEvent J)) (st : MessageState J)
  | stop (out : List Char) (evs : List (ParseEvent J)) (st : MessageState J)
  | fail (e : ParseError)
deriving Repr

/-- The action-open handling inside the loop (an action-open marker found at
index `a` before any container-close marker): find the tag's closing `>`,
parse the tag, fire the open callback carrying the current counter value,
then increment the counter; with no `>` available, break and wait. -/
def openActionStep (J : Type) (jp : List Char → Option J) (messageId input : List Char)
    (st : MessageState J) (currentArtifact : ArtifactData) (a : Nat) : StepOut J :=
  match indexOfFrom GT_LIST input a with
  | some actionEndIndex =>
    match parseActionTag J jp input a actionEndIndex with
    | .error e => .fail e
    | .ok act =>
      .cont []
        [.actionOpen currentArtifact.id messageId st.actionId act]
        { st with position := actionEndIndex + 1, insideAction := true,
                  currentAction := act, actionId := st.actionId + 1 }
  | none => .stop [] [] st

/-- The container-close handling inside the loop: fire the close callback with
the retained artifact record, clear the artifact state, advance past the
marker at index `cIdx`. -/
def closeArtifactStep (J : Type) (messageId : List Char) (st : MessageState J)
    (currentArtifact : ArtifactData) (cIdx : Nat) : StepOut J :=
  .cont [] [.artifactClose messageId currentArtifact]
    { st with position := cIdx + ARTIFACT_TAG_CLOSE.length,
              insideArtifact := false, currentArtifact := none }

/-- The body of the `while` loop apart from the leading quick-actions block
check (the `state.insideArtifact` chain, container-open matching, and plain
passthrough). -/
def mainStep (J : Type) (jp : List Char → Option J) (messageId input : List Char)
    (st : MessageState J) : StepOut J :=
  let i := st.position
  if st.insideArtifact then
    match st.currentArtifact with
    | none => .fail .artifactNotInitialized
    | some currentArtifact =>
      if st.insideAction then
        match indexOfFrom ARTIFACT_ACTION_TAG_CLOSE input i with
        | some closeIndex =>
          let content0 := trimList (st.currentAction.content ++ strSlice input i closeIndex)
          if st.currentAction.type = some TYPE_FILE then
            match st.currentAction.filePath with
            | none => .fail .filePathUndefinedTypeError
            | some fp =>
              let content1 :=
                if MD_SUFFIX.isSuffixOf fp then content0
                else cleanEscapedTags (cleanoutMarkdownSyntax content0)
              .cont []
                [.actionClose currentArtifact.id messageId (st.actionId - 1)
                  { st.currentAction with content := content1 ++ ['\n'] }]
                { st with position := closeIndex + ARTIFACT_ACTION_TAG_CLOSE.length,
                          insideAction := false, currentAction := {} }
          else
            .cont []
              [.actionClose currentArtifact.id messageId (st.actionId - 1)
                { st.currentAction with content := content0 }]
              { st with position := closeIndex + ARTIFACT_ACTION_TAG_CLOSE.length,
                        insideAction := false, currentAction := {} }
        | none =>
          if st.currentAction.type = some TYPE_FILE then
            match st.currentAction.filePath with
            | none => .fail .filePathUndefinedTypeError
            | some fp =>
              let raw := strSlice input i input.length
              let c1 :=
                if MD_SUFFIX.isSuffixOf fp then raw
                else cleanEscapedTags (cleanoutMarkdownSyntax raw)
              .stop []
                [.actionStream currentArtifact.id messageId (st.actionId - 1)
                  { st.currentAction with content := c1, filePath := some fp }]
                st
          else .stop [] [] st
      else
        match indexOfFrom ARTIFACT_ACTION_TAG_OPEN input i,
              indexOfFrom ARTIFACT_TAG_CLOSE input i with
        | some a, none => openActionStep J jp messageId input st currentArtifact a
        | some a, some cIdx =>
          if a < cIdx then openActionStep J jp messageId input st currentArtifact a
          else closeArtifactStep J messageId st currentArtifact cIdx
        | none, some cIdx => closeArtifactStep J messageId st currentArtifact cIdx
        | none, none => .stop [] [] st
  else
    if input[i]? = some '<' ∧ input[i + 1]? ≠ some '/' then
      match scanTag input i with
      | .advance k => .cont (strSlice input i (i + k)) [] { st with position := i + k }
      | .openAt g =>
        let artifactTag := strSlice input i (i + g + 1)
        let art : ArtifactData :=
          { id := extractAttribute artifactTag ATTR_ID,
            title := extractAttribute artifactTag ATTR_TITLE,
            type := extractAttribute artifactTag ATTR_TYPE }
        .cont (createArtifactElement messageId) [.artifactOpen messageId art]
          { st with position := i + g + 1, insideArtifact := true, currentArtifact := some art }
      | .noGt => .stop [] [] st
      | .waitEnd => .stop [] [] st
    else
      .cont (match input[i]? with | some ch => [ch] | none => []) []
        { st with position := i + 1 }

/-- One iteration of the `while` loop of `parse`: first the quick-actions
block check; when the open marker matches at the cursor but the close marker
is absent from the whole remaining text, control falls through to the rest of
the loop body (there is no early exit in the source). -/
def parseStep (J : Type) (jp : List Char → Option J) (messageId input : List Char)
    (st : MessageState J) : StepOut J :=
  let i := st.position
  if startsWithAt BOLT_QUICK_ACTIONS_OPEN input i then
    match indexOfFrom BOLT_QUICK_ACTIONS_CLOSE input i with
    | some actionsBlockEnd =>
      let blockContent := strSlice input (i + BOLT_QUICK_ACTIONS_OPEN.length) actionsBlockEnd
      let buttons := (quickItems blockContent).map (fun ab =>
        createQuickActionElement
          (orEmpty (extractAttribute ab.1 ATTR_TYPE))
          (orEmpty (extractAttribute ab.1 ATTR_MESSAGE))
          (orEmpty (extractAttribute ab.1 ATTR_PATH))
          (orEmpty (extractAttribute ab.1 ATTR_HREF))
          ab.2)
      .cont (createQuickActionGroup buttons) []
        { st with position := actionsBlockEnd + BOLT_QUICK_ACTIONS_CLOSE.length }
    | none => mainStep J jp messageId input st
  else mainStep J jp messageId input st

/-- The `while (i < input.length)` loop, driven by fuel; running out of fuel
behaves like the loop exiting (the top-level `parse` always supplies enough
fuel, since every `cont` step strictly advances the cursor). -/
def parseLoop (J : Type) (jp : List Char → Option J) (messageId input : List Char) :
    Nat → MessageState J → Except ParseError (List Char × List (ParseEvent J) × MessageState J)
  | 0, st => .ok ([], [], st)
  | fuel + 1, st =>
    if st.position < input.length then
      match parseStep J jp messageId input st with
      | .fail e => .error e
      | .stop out evs st' => .ok (out, evs, st')
      | .cont out evs st' =>
        match parseLoop J jp messageId input fuel st' with
        | .error e => .error e
        | .ok (out2, evs2, st2) => .ok (out ++ out2, evs ++ evs2, st2)
    else .ok ([], [], st)

/-- Source `parse(messageId, input)` run against a given prior state (`none`
models the lazily created fresh state).  Returns the newly produced output
fragment, the callback trace, and the updated stored state; `Except.error`
models a thrown exception (in which case the stored state's `position` is
left unchanged by the source, since its update is the final statement). -/
def parse (J : Type) (jp : List Char → Option J) (messageId input : List Char)
    (prior : Option (MessageState J)) :
    Except ParseError (List Char × List (ParseEvent J) × MessageState J) :=
  parseLoop J jp messageId input (input.length + 1) (prior.getD (initialMessageState J))

/-! Convenience instantiation and projections used by concrete runs. -/

/-- A `JSON.parse` model that rejects everything; the scanning claims do not
depend on JSON values. -/
def noJson : List Char → Option Unit := fun _ => none

def MSG_ID : List Char := "m1".data

/-- Run `parse` with the trivial JSON model and a fixed message id. -/
def runParse (input : List Char) (prior : Option (MessageState Unit)) :
    Except ParseError (List Char × List (ParseEvent Unit) × MessageState Unit) :=
  parse Unit noJson MSG_ID input prior

def outOf (J : Type) (r : Except ParseError (List Char × List (ParseEvent J) × MessageState J)) :
    List Char :=
  match r with
  | .ok (o, _, _) => o
  | .error _ => []

def evsOf (J : Type) (r : Except ParseError (List Char × List (ParseEvent J) × MessageState J)) :
    List (ParseEvent J) :=
  match r with
  | .ok (_, e, _) => e
  | .error _ => []

def stOf (J : Type) (r : Except ParseError (List Char × List (ParseEvent J) × MessageState J)) :
    Option (MessageState J) :=
  match r with
  | .ok (_, _, s) => some s
  | .error _ => none

/-- The final contents of the actions closed during a run, in order. -/
def closeContents (J : Type)
    (r : Except ParseError (List Char × List (ParseEvent J) × MessageState J)) :
    List (List Char) :=
  (evsOf J r).filterMap (fun e =>
    match e with
    | .actionClose _ _ _ a => some a.content
    | _ => none)

/-! Concrete inputs used by the claim theorems. -/

/-- A fully well-formed quick-actions block (exactly the spec's §8 example). -/
def c1T : List Char :=
  "<bolt-quick-actions><bolt-quick-action type=\"message\" message=\"Hi\">Say hi</bolt-quick-action></bolt-quick-actions>".data

/-- The prefix of `c1T` of length 20 — exactly the open marker
`<bolt-quick-actions>`. -/
def c1Part : List Char := c1T.take 20

/-- A chunk whose unscanned remainder begins with the quick-actions open
marker while the close marker is not yet present. -/
def c2T : List Char :=
  "<bolt-quick-actions><bolt-quick-action type=\"message\" message=\"Hi\">".data

/-- An artifact containing a complete `file` action with no `filePath`
attribute. -/
def c3Full : List Char :=
  "<boltArtifact id=\"a1\" title=\"T\" type=\"b\"><boltAction type=\"file\">data</boltAction></boltArtifact>".data

/-- The prefix of `c3Full` ending right after the action-open tag. -/
def c3Open : List Char :=
  "<boltArtifact id=\"a1\" title=\"T\" type=\"b\"><boltAction type=\"file\">".data

/-- The artifact record carried by the callbacks for `c3Full`. -/
def c3Art : ArtifactData :=
  { id := some ['a', '1'], title := some ['T'], type := some ['b'] }

/-- A navigation action-open tag whose four required attributes are all
present, with `navigationType` set to the empty string. -/
def c4Tag : List Char :=
  "<boltAction type=\"navigation\" fromScreen=\"a\" toScreen=\"b\" trigger=\"click\" navigationType=\"\">".data

/-- Artifact wrapper around a `file` action for `x.ts` whose content is a
markdown code fence. -/
def c5Ts : List Char :=
  "<boltArtifact id=\"a\" title=\"t\" type=\"b\"><boltAction type=\"file\" filePath=\"x.ts\">```ts\nconst x=1;\n```</boltAction></boltArtifact>".data

/-- The same content as `c5Ts` but for a markdown target path. -/
def c5Md : List Char :=
  "<boltArtifact id=\"a\" title=\"t\" type=\"b\"><boltAction type=\"file\" filePath=\"x.md\">```ts\nconst x=1;\n```</boltAction></boltArtifact>".data

/-- A fenced `file` content holding HTML-escaped angle brackets, for a
non-markdown path. -/
def c5Html : List Char :=
  "<boltArtifact id=\"a\" title=\"t\" type=\"b\"><boltAction type=\"file\" filePath=\"x.html\">```html\n&lt;div&gt;\n```</boltAction></boltArtifact>".data

/-! Claim theorems: quick-actions streaming. -/

/-- C1 (code bug): idempotent resumption fails on a well-formed quick-actions
block.  Splitting `c1T` after its open marker (k = 20) and resuming on the
same state yields the raw text verbatim, while a single fresh `parse` of the
same text yields the generated button-group markup — the combined output does
not equal the single-call output, because the quick-actions branch falls
through (instead of waiting) when the close marker is not yet present. -/
theorem quick_actions_split_breaks_resumption :
    outOf Unit (runParse c1Part none)
        ++ outOf Unit (runParse c1T (stOf Unit (runParse c1Part none))) = c1T
      ∧ outOf Unit (runParse c1T none) ≠ c1T := by
  constructor
  · decide
  · decide

/-- C2 (code bug): with the quick-actions open marker at the cursor and no
close marker available, the source does not leave the cursor unchanged and
stop; it falls through to passthrough scanning, emits the whole region
verbatim, and advances the cursor to the end of the input. -/
theorem quick_actions_open_without_close_falls_through :
    runParse c2T none = .ok (c2T, [], { position := 67 }) ∧ c2T ≠ [] ∧ (67 : Nat) ≠ 0 := by
  refine ⟨by decide, by decide, by decide⟩

/-! Claim theorems: file action without `filePath`. -/

/-- C3 (code bug): a `file` action tag with no `filePath` attribute is
tolerated at action open (the record carries `filePath = none`, only a debug
log is emitted, the open callback fires), but the action-close handling then
evaluates `currentAction.filePath.endsWith('.md')` on `undefined` and throws
a `TypeError`, so the content is never delivered on close. -/
theorem file_action_without_path_throws_at_close :
    evsOf Unit (runParse c3Open none)
        = [.artifactOpen MSG_ID c3Art,
           .actionOpen (some ['a', '1']) MSG_ID 0 { type := some TYPE_FILE }]
      ∧ runParse c3Full none = .error .filePathUndefinedTypeError := by
  refine ⟨by decide, by decide⟩

/-! Claim theorems: C4 counterexample (required attribute present but empty). -/

/-- C4 counterexample: a navigation action-open tag in which all four required
attributes are present — `navigationType` is present with the empty value —
still throws, so `parse` does not throw *exactly* when a required attribute is
missing: JS falsiness also rejects present-but-empty values. -/
theorem navigation_empty_attribute_still_throws :
    extractAttribute c4Tag ATTR_FROM_SCREEN = some ['a']
      ∧ extractAttribute c4Tag ATTR_TO_SCREEN = some ['b']
      ∧ extractAttribute c4Tag ATTR_TRIGGER = some ['c', 'l', 'i', 'c', 'k']
      ∧ extractAttribute c4Tag ATTR_NAVIGATION_TYPE = some []
      ∧ parseActionTag Unit noJson c4Tag 0 (c4Tag.length - 1)
          = .error .navigationMissingRequired := by
  refine ⟨by decide, by decide, by decide, by decide, by decide⟩

/-! Claim theorems: markdown stripping of file content. -/

/-- C5: on action close, a file content consisting of a fenced code block for
a non-markdown path finalizes to the fenced body plus a trailing newline (with
`&lt;`/`&gt;` unescaped), while the same content for a `.md` path is finalized
unmodified apart from trimming, plus the trailing newline. -/
theorem file_content_markdown_stripping :
    closeContents Unit (runParse c5Ts none) = ["const x=1;\n".data]
      ∧ closeContents Unit (runParse c5Md none) = ["```ts\nconst x=1;\n```\n".data]
      ∧ closeContents Unit (runParse c5Html none) = ["<div>\n".data] := by
  refine ⟨by decide, by decide, by decide⟩

/-! Trace invariants: action-id bookkeeping (C8) and callback ordering (C9).
The two folds walk an event trace carrying the parser's bookkeeping and
reject any event that is out of place; a fold returning `some` of the final
bookkeeping states that the trace is well-formed and ends there. -/

/-- One step of the action-id discipline: an open event must carry the
current counter value and bumps it; stream and close events must occur inside
an open action and carry the id assigned at that action's open (counter minus
one); close ends the action. -/
def idsStep (J : Type) : Nat × Bool → ParseEvent J → Option (Nat × Bool)
  | (c, _), .actionOpen _ _ n _ => if n = c then some (c + 1, true) else none
  | (c, true), .actionStream _ _ n _ => if n = c - 1 then some (c, true) else none
  | (c, true), .actionClose _ _ n _ => if n = c - 1 then some (c, false) else none
  | (_, false), .actionStream _ _ _ _ => none
  | (_, false), .actionClose _ _ _ _ => none
  | (c, b), .artifactOpen _ _ => some (c, b)
  | (c, b), .artifactClose _ _ => some (c, b)

/-- Fold of `idsStep` over a trace. -/
def idsFold (J : Type) (acc : Nat × Bool) : List (ParseEvent J) → Option (Nat × Bool)
  | [] => some acc
  | e :: r =>
    match idsStep J acc e with
    | some acc' => idsFold J acc' r
    | none => none

/-- One step of the document-order discipline over the pair
(inside artifact, inside action): artifact-open only outside an artifact;
action-open only inside an artifact and outside an action (so after the
previous sibling's close); stream and close only inside an open action;
artifact-close only when no action is open (so after all its actions
closed). -/
def orderStep (J : Type) : Bool × Bool → ParseEvent J → Option (Bool × Bool)
  | (false, false), .artifactOpen _ _ => some (true, false)
  | (true, false), .actionOpen _ _ _ _ => some (true, true)
  | (true, true), .actionStream _ _ _ _ => some (true, true)
  | (true, true), .actionClose _ _ _ _ => some (true, false)
  | (true, false), .artifactClose _ _ => some (false, false)
  | _, _ => none

/-- Fold of `orderStep` over a trace. -/
def orderFold (J : Type) (acc : Bool × Bool) : List (ParseEvent J) → Option (Bool × Bool)
  | [] => some acc
  | e :: r =>
    match orderStep J acc e with
    | some acc' => orderFold J acc' r
    | none => none

/-- A loop-step result stripped of the continue/break distinction; `none` is
a thrown exception. -/
def stepResOf (J : Type) : StepOut J → Option (List Char × List (ParseEvent J) × MessageState J)
  | .cont o e s => some (o, e, s)
  | .stop o e s => some (o, e, s)
  | .fail _ => none

lemma idsFold_append (J : Type) (acc : Nat × Bool) (l1 l2 : List (ParseEvent J)) :
    idsFold J acc (l1 ++ l2)
      = match idsFold J acc l1 with
        | some a => idsFold J a l2
        | none => none := by
  induction l1 generalizing acc with
  | nil => simp [idsFold]
  | cons e r ih =>
    simp only [List.cons_append, idsFold]
    cases idsStep J acc e with
    | none => rfl
    | some acc' => exact ih acc'

lemma orderFold_append (J : Type) (acc : Bool × Bool) (l1 l2 : List (ParseEvent J)) :
    orderFold J acc (l1 ++ l2)
      = match orderFold J acc l1 with
        | some a => orderFold J a l2
        | none => none := by
  induction l1 generalizing acc with
  | nil => simp [orderFold]
  | cons e r ih =>
    simp only [List.cons_append, orderFold]
    cases orderStep J acc e with
    | none => rfl
    | some acc' => exact ih acc'

lemma indexOfFrom_le (pat s : List Char) (i p : Nat) (h : indexOfFrom pat s i = some p) :
    i ≤ p := by
  unfold indexOfFrom at h
  cases hf : firstPrefixPos pat (s.drop i) with
  | none => simp [hf] at h
  | some m => simp [hf] at h; omega

/-- Shape of the invariant each loop step preserves: the cursor does not
rewind, the id fold and the order fold both accept the step's events and land
on the new state's bookkeeping, and an open action still implies an open
artifact. -/
def StepInv (J : Type) (st st' : MessageState J) (evs : List (ParseEvent J)) : Prop :=
  st.position ≤ st'.position
    ∧ idsFold J (st.actionId, st.insideAction) evs = some (st'.actionId, st'.insideAction)
    ∧ ((st.insideAction = true → st.insideArtifact = true) →
        orderFold J (st.insideArtifact, st.insideAction) evs
            = some (st'.insideArtifact, st'.insideAction)
          ∧ (st'.insideAction = true → st'.insideArtifact = true))

lemma openActionStep_inv (J : Type) (jp : List Char → Option J) (m input : List Char)
    (st : MessageState J) (ca : ArtifactData) (a : Nat)
    (o : List Char) (evs : List (ParseEvent J)) (st' : MessageState J)
    (hA : st.insideArtifact = true) (hIn : st.insideAction = false) (hi : st.position ≤ a)
    (h : stepResOf J (openActionStep J jp m input st ca a) = some (o, evs, st')) :
    StepInv J st st' evs := by
  unfold openActionStep at h
  cases hgt : indexOfFrom GT_LIST input a with
  | none =>
    simp only [hgt, stepResOf] at h
    obtain ⟨rfl, rfl, rfl⟩ := h
    simp [StepInv, idsFold, orderFold]
  | some ae =>
    have hae := indexOfFrom_le GT_LIST input a ae hgt
    simp only [hgt] at h
    cases hpa : parseActionTag J jp input a ae with
    | error e =>
      simp only [hpa, stepResOf] at h
      exact Option.noConfusion h
    | ok act =>
      simp only [hpa, stepResOf] at h
      obtain ⟨rfl, rfl, rfl⟩ := h
      refine ⟨by simp; omega, ?_, ?_⟩
      · simp [idsFold, idsStep, hIn]
      · intro _
        simp [orderFold, orderStep, hA, hIn]

lemma closeArtifactStep_inv (J : Type) (m : List Char) (st : MessageState J)
    (ca : ArtifactData) (cIdx : Nat)
    (o : List Char) (evs : List (ParseEvent J)) (st' : MessageState J)
    (hA : st.insideArtifact = true) (hIn : st.insideAction = false) (hi : st.position ≤ cIdx)
    (h : stepResOf J (closeArtifactStep J m st ca cIdx) = some (o, evs, st')) :
    StepInv J st st' evs := by
  unfold closeArtifactStep at h
  simp only [stepResOf] at h
  obtain ⟨rfl, rfl, rfl⟩ := h
  refine ⟨by simp; omega, ?_, ?_⟩
  · simp [idsFold, idsStep, hIn]
  · intro _
    simp [orderFold, orderStep, hA, hIn]

lemma mainStep_inv (J : Type) (jp : List Char → Option J) (m input : List Char)
    (st : MessageState J)
    (o : List Char) (evs : List (ParseEvent J)) (st' : MessageState J)
    (h : stepResOf J (mainStep J jp m input st) = some (o, evs, st')) :
    StepInv J st st' evs := by
  by_cases hA : st.insideArtifact = true
  · cases hca : st.currentArtifact with
    | none =>
      simp only [mainStep, hA, hca, if_true, stepResOf] at h
      exact Option.noConfusion h
    | some ca =>
      by_cases hIn : st.insideAction = true
      · cases hclose : indexOfFrom ARTIFACT_ACTION_TAG_CLOSE input st.position with
        | some closeIndex =>
          have hle := indexOfFrom_le _ input _ _ hclose
          by_cases hty : st.currentAction.type = some TYPE_FILE
          · cases hfp : st.currentAction.filePath with
            | none =>
              simp only [mainStep, hA, hca, hIn, hclose, hty, hfp, if_true, stepResOf] at h
              exact Option.noConfusion h
            | some fp =>
              simp only [mainStep, hA, hca, hIn, hclose, hty, hfp, if_true, stepResOf] at h
              obtain ⟨rfl, rfl, rfl⟩ := h
              refine ⟨by simp; omega, ?_, ?_⟩
              · simp [idsFold, idsStep, hIn]
              · intro _
                simp [orderFold, orderStep, hA, hIn]
          · simp only [mainStep, hA, hca, hIn, hclose, hty, if_true, if_false, stepResOf] at h
            obtain ⟨rfl, rfl, rfl⟩ := h
            refine ⟨by simp; omega, ?_, ?_⟩
            · simp [idsFold, idsStep, hIn]
            · intro _
              simp [orderFold, orderStep, hA, hIn]
        | none =>
          by_cases hty : st.currentAction.type = some TYPE_FILE
          · cases hfp : st.currentAction.filePath with
            | none =>
              simp only [mainStep, hA, hca, hIn, hclose, hty, hfp, if_true, stepResOf] at h
              exact Option.noConfusion h
            | some fp =>
              simp only [mainStep, hA, hca, hIn, hclose, hty, hfp, if_true, stepResOf] at h
              obtain ⟨rfl, rfl, rfl⟩ := h
              refine ⟨le_refl _, ?_, ?_⟩
              · simp [idsFold, idsStep, hIn]
              · intro _
                simp [orderFold, orderStep, hA, hIn]
          · simp only [mainStep, hA, hca, hIn, hclose, hty, if_true, if_false, stepResOf] at h
            obtain ⟨rfl, rfl, rfl⟩ := h
            exact ⟨le_refl _, by simp [idsFold], fun hIA => ⟨by simp [orderFold], hIA⟩⟩
      · have hIn' : st.insideAction = false := by
          cases hb : st.insideAction
          · rfl
          · exact absurd hb hIn
        cases haoi : indexOfFrom ARTIFACT_ACTION_TAG_OPEN input st.position with
        | some a =>
          have hia := indexOfFrom_le _ input _ _ haoi
          cases haci : indexOfFrom ARTIFACT_TAG_CLOSE input st.position with
          | none =>
            simp only [mainStep, hA, hca, hIn', haoi, haci, if_true, Bool.false_eq_true,
              if_false] at h
            exact openActionStep_inv J jp m input st ca a o evs st' hA hIn' hia h
          | some cIdx =>
            have hic := indexOfFrom_le _ input _ _ haci
            by_cases hlt : a < cIdx
            · simp only [mainStep, hA, hca, hIn', haoi, haci, hlt, if_true, Bool.false_eq_true,
                if_false] at h
              exact openActionStep_inv J jp m input st ca a o evs st' hA hIn' hia h
            · simp only [mainStep, hA, hca, hIn', haoi, haci, hlt, if_true, Bool.false_eq_true,
                if_false] at h
              exact closeArtifactStep_inv J m st ca cIdx o evs st' hA hIn' hic h
        | none =>
          cases haci : indexOfFrom ARTIFACT_TAG_CLOSE input st.position with
          | some cIdx =>
            have hic := indexOfFrom_le _ input _ _ haci
            simp only [mainStep, hA, hca, hIn', haoi, haci, if_true, Bool.false_eq_true,
              if_false] at h
            exact closeArtifactStep_inv J m st ca cIdx o evs st' hA hIn' hic h
          | none =>
            simp only [mainStep, hA, hca, hIn', haoi, haci, if_true, Bool.false_eq_true,
              if_false, stepResOf] at h
            obtain ⟨rfl, rfl, rfl⟩ := h
            exact ⟨le_refl _, by simp [idsFold], fun hIA => ⟨by simp [orderFold], hIA⟩⟩
  · have hA' : st.insideArtifact = false := by
      cases hb : st.insideArtifact
      · rfl
      · exact absurd hb hA
    by_cases hg1 : input[st.position]? = some '<'
    · by_cases hg2 : input[st.position + 1]? = some '/'
      · simp only [mainStep, hA', Bool.false_eq_true, if_false, hg1, hg2, ne_eq,
          not_true_eq_false, and_false, if_false, stepResOf] at h
        obtain ⟨rfl, rfl, rfl⟩ := h
        exact ⟨by simp, by simp [idsFold],
          fun hIA => ⟨by simp [orderFold, hA'], fun hx => absurd (hIA hx) (by simp [hA'])⟩⟩
      · cases hscan : scanTag input st.position with
        | advance k =>
          simp only [mainStep, hA', Bool.false_eq_true, if_false, hg1, hg2, ne_eq,
            not_false_eq_true, and_true, if_true, hscan, stepResOf] at h
          obtain ⟨rfl, rfl, rfl⟩ := h
          exact ⟨by simp, by simp [idsFold],
            fun hIA => ⟨by simp [orderFold, hA'], fun hx => absurd (hIA hx) (by simp [hA'])⟩⟩
        | openAt g =>
          simp only [mainStep, hA', Bool.false_eq_true, if_false, hg1, hg2, ne_eq,
            not_false_eq_true, and_true, if_true, hscan, stepResOf] at h
          obtain ⟨rfl, rfl, rfl⟩ := h
          refine ⟨by simp; omega, by simp [idsFold, idsStep], ?_⟩
          intro hIA
          have hIn' : st.insideAction = false := by
            cases hb : st.insideAction
            · rfl
            · exact absurd (hIA hb) (by simp [hA'])
          simp [orderFold, orderStep, hA', hIn']
        | noGt =>
          simp only [mainStep, hA', Bool.false_eq_true, if_false, hg1, hg2, ne_eq,
            not_false_eq_true, and_true, if_true, hscan, stepResOf] at h
          obtain ⟨rfl, rfl, rfl⟩ := h
          exact ⟨le_refl _, by simp [idsFold], fun hIA => ⟨by simp [orderFold], hIA⟩⟩
        | waitEnd =>
          simp only [mainStep, hA', Bool.false_eq_true, if_false, hg1, hg2, ne_eq,
            not_false_eq_true, and_true, if_true, hscan, stepResOf] at h
          obtain ⟨rfl, rfl, rfl⟩ := h
          exact ⟨le_refl _, by simp [idsFold], fun hIA => ⟨by simp [orderFold], hIA⟩⟩
    · simp only [mainStep, hA', Bool.false_eq_true, if_false, hg1, false_and, if_false,
        stepResOf] at h
      obtain ⟨rfl, rfl, rfl⟩ := h
      exact ⟨by simp, by simp [idsFold],
        fun hIA => ⟨by simp [orderFold, hA'], fun hx => absurd (hIA hx) (by simp [hA'])⟩⟩

lemma parseStep_inv (J : Type) (jp : List Char → Option J) (m input : List Char)
    (st : MessageState J)
    (o : List Char) (evs : List (ParseEvent J)) (st' : MessageState J)
    (h : stepResOf J (parseStep J jp m input st) = some (o, evs, st')) :
    StepInv J st st' evs := by
  by_cases hq : startsWithAt BOLT_QUICK_ACTIONS_OPEN input st.position = true
  · cases hcl : indexOfFrom BOLT_QUICK_ACTIONS_CLOSE input st.position with
    | some blockEnd =>
      have hbe := indexOfFrom_le _ input _ _ hcl
      simp only [parseStep, hq, hcl, if_true, stepResOf] at h
      obtain ⟨rfl, rfl, rfl⟩ := h
      exact ⟨by simp; omega, by simp [idsFold], fun hIA => ⟨by simp [orderFold], hIA⟩⟩
    | none =>
      simp only [parseStep, hq, hcl, if_true] at h
      exact mainStep_inv J jp m input st o evs st' h
  · have hq' : startsWithAt BOLT_QUICK_ACTIONS_OPEN input st.position = false := by
      cases hb : startsWithAt BOLT_QUICK_ACTIONS_OPEN input st.position
      · rfl
      · exact absurd hb hq
    simp only [parseStep, hq', Bool.false_eq_true, if_false] at h
    exact mainStep_inv J jp m input st o evs st' h

lemma stepInv_refl (J : Type) (st : MessageState J) : StepInv J st st [] :=
  ⟨le_refl _, by simp [idsFold], fun hIA => ⟨by simp [orderFold], hIA⟩⟩

lemma stepInv_trans (J : Type) (st st1 st2 : MessageState J)
    (e1 e2 : List (ParseEvent J))
    (h1 : StepInv J st st1 e1) (h2 : StepInv J st1 st2 e2) :
    StepInv J st st2 (e1 ++ e2) := by
  obtain ⟨p1, i1, o1⟩ := h1
  obtain ⟨p2, i2, o2⟩ := h2
  refine ⟨le_trans p1 p2, ?_, ?_⟩
  · rw [idsFold_append]
    simp [i1, i2]
  · intro hIA
    obtain ⟨of1, hIA1⟩ := o1 hIA
    obtain ⟨of2, hIA2⟩ := o2 hIA1
    refine ⟨?_, hIA2⟩
    rw [orderFold_append]
    simp [of1, of2]

/-- Every successful `parseLoop` run satisfies the step invariant between its
initial and final states, with the full event trace. -/
lemma parseLoop_inv (J : Type) (jp : List Char → Option J) (m input : List Char) :
    ∀ (fuel : Nat) (st : MessageState J) (o : List Char) (evs : List (ParseEvent J))
      (st' : MessageState J),
      parseLoop J jp m input fuel st = .ok (o, evs, st') → StepInv J st st' evs := by
  intro fuel
  induction fuel with
  | zero =>
    intro st o evs st' h
    simp only [parseLoop] at h
    obtain ⟨rfl, rfl, rfl⟩ := h
    exact stepInv_refl J st
  | succ n ih =>
    intro st o evs st' h
    simp only [parseLoop] at h
    by_cases hlt : st.position < input.length
    · rw [if_pos hlt] at h
      cases hs : parseStep J jp m input st with
      | fail e =>
        simp only [hs] at h
        exact Except.noConfusion h
      | stop o1 e1 s1 =>
        simp only [hs] at h
        obtain ⟨rfl, rfl, rfl⟩ := h
        exact parseStep_inv J jp m input st o evs st' (by rw [hs]; rfl)
      | cont o1 e1 s1 =>
        simp only [hs] at h
        cases hr : parseLoop J jp m input n s1 with
        | error e =>
          simp only [hr] at h
          exact Except.noConfusion h
        | ok triple =>
          obtain ⟨o2, e2, s2⟩ := triple
          simp only [hr] at h
          obtain ⟨rfl, rfl, rfl⟩ := h
          exact stepInv_trans J st s1 st' e1 e2
            (parseStep_inv J jp m input st o1 e1 s1 (by rw [hs]; rfl))
            (ih s1 o2 e2 st' hr)
    · rw [if_neg hlt] at h
      obtain ⟨rfl, rfl, rfl⟩ := h
      exact stepInv_refl J st

/-- C6: for every call to `parse` that returns, the stored cursor after the
call is greater than or equal to the cursor before it — the parser never
rewinds, so previously finalized regions are never reprocessed.  (A call that
throws leaves the stored cursor untouched, since the source updates
`state.position` only as its final statement.) -/
theorem parse_cursor_never_rewinds (J : Type) (jp : List Char → Option J)
    (m input : List Char) (prior : Option (MessageState J))
    (o : List Char) (evs : List (ParseEvent J)) (st' : MessageState J)
    (h : parse J jp m input prior = .ok (o, evs, st')) :
    (prior.getD (initialMessageState J)).position ≤ st'.position :=
  (parseLoop_inv J jp m input (input.length + 1) (prior.getD (initialMessageState J))
    o evs st' h).1

/-- C8: the per-message action counter starts at zero, each action-open event
carries the current counter value and increments it by one (so action ids are
unique and consecutive in document order), and every stream or close event
carries the id assigned at its action's open — the fold `idsFold` checks
exactly this discipline and every `parse` trace satisfies it, ending at the
stored counter. -/
theorem action_ids_sequential_and_shared (J : Type) (jp : List Char → Option J)
    (m input : List Char) (prior : Option (MessageState J))
    (o : List Char) (evs : List (ParseEvent J)) (st' : MessageState J)
    (h : parse J jp m input prior = .ok (o, evs, st')) :
    idsFold J ((prior.getD (initialMessageState J)).actionId,
        (prior.getD (initialMessageState J)).insideAction) evs
        = some (st'.actionId, st'.insideAction)
      ∧ (initialMessageState J).actionId = 0 :=
  ⟨(parseLoop_inv J jp m input (input.length + 1) (prior.getD (initialMessageState J))
      o evs st' h).2.1, rfl⟩

/-- C9: the callback trace of every `parse` call is accepted by the
document-order automaton `orderStep` — artifact-open fires only outside an
artifact, each action-open only inside an artifact with no action open (hence
after the previous sibling's close), stream/close only inside the open
action, and artifact-close only after all the artifact's actions have closed.
The fold ends at the stored flags, so the discipline composes across a
sequence of calls on the same message state. -/
theorem callbacks_in_document_order (J : Type) (jp : List Char → Option J)
    (m input : List Char) (prior : Option (MessageState J))
    (o : List Char) (evs : List (ParseEvent J)) (st' : MessageState J)
    (hIA : (prior.getD (initialMessageState J)).insideAction = true →
      (prior.getD (initialMessageState J)).insideArtifact = true)
    (h : parse J jp m input prior = .ok (o, evs, st')) :
    orderFold J ((prior.getD (initialMessageState J)).insideArtifact,
        (prior.getD (initialMessageState J)).insideAction) evs
        = some (st'.insideArtifact, st'.insideAction)
      ∧ (st'.insideAction = true → st'.insideArtifact = true) :=
  (parseLoop_inv J jp m input (input.length + 1) (prior.getD (initialMessageState J))
    o evs st' h).2.2 hIA

/-! Concrete runs instantiating the universally quantified claim theorems. -/

def c6In : List Char := "hello <b>world</b>".data

def c8In : List Char :=
  "<boltArtifact id=\"a\" title=\"t\" type=\"b\"><boltAction type=\"shell\">echo hi</boltAction></boltArtifact>".data

def c9In : List Char :=
  "<boltArtifact id=\"a\" title=\"t\" type=\"b\"><boltAction type=\"start\"></boltAction><boltAction type=\"build\"></boltAction></boltArtifact>".data

/-- Witness for the cursor-monotonicity theorem at a concrete input. -/
theorem parse_cursor_never_rewinds_witness :
    ((none : Option (MessageState Unit)).getD (initialMessageState Unit)).position
      ≤ ((stOf Unit (runParse c6In none)).getD (initialMessageState Unit)).position :=
  parse_cursor_never_rewinds Unit noJson MSG_ID c6In none
    (outOf Unit (runParse c6In none)) (evsOf Unit (runParse c6In none))
    ((stOf Unit (runParse c6In none)).getD (initialMessageState Unit)) (by decide)

/-- Witness for the action-id theorem at a concrete one-action input. -/
theorem action_ids_sequential_and_shared_witness :
    idsFold Unit (((none : Option (MessageState Unit)).getD (initialMessageState Unit)).actionId,
        ((none : Option (MessageState Unit)).getD (initialMessageState Unit)).insideAction)
        (evsOf Unit (runParse c8In none))
        = some (((stOf Unit (runParse c8In none)).getD (initialMessageState Unit)).actionId,
            ((stOf Unit (runParse c8In none)).getD (initialMessageState Unit)).insideAction)
      ∧ (initialMessageState Unit).actionId = 0 :=
  action_ids_sequential_and_shared Unit noJson MSG_ID c8In none
    (outOf Unit (runParse c8In none)) (evsOf Unit (runParse c8In none))
    ((stOf Unit (runParse c8In none)).getD (initialMessageState Unit)) (by decide)

/-- Witness for the callback-ordering theorem at a concrete two-action input. -/
theorem callbacks_in_document_order_witness :
    orderFold Unit (((none : Option (MessageState Unit)).getD (initialMessageState Unit)).insideArtifact,
        ((none : Option (MessageState Unit)).getD (initialMessageState Unit)).insideAction)
        (evsOf Unit (runParse c9In none))
        = some (((stOf Unit (runParse c9In none)).getD (initialMessageState Unit)).insideArtifact,
            ((stOf Unit (runParse c9In none)).getD (initialMessageState Unit)).insideAction)
      ∧ (((stOf Unit (runParse c9In none)).getD (initialMessageState Unit)).insideAction = true →
          ((stOf Unit (runParse c9In none)).getD (initialMessageState Unit)).insideArtifact = true) :=
  callbacks_in_document_order Unit noJson MSG_ID c9In none
    (outOf Unit (runParse c9In none)) (evsOf Unit (runParse c9In none))
    ((stOf Unit (runParse c9In none)).getD (initialMessageState Unit)) (by decide) (by decide)

/-! Characterization of the action-open tag throws (C4, amended). -/

lemma supabaseAttrs_error_iff (J : Type) (tag : List Char) (base : ActionRecord J) :
    (∃ err, supabaseAttrs J tag base = .error err) ↔
      ((extractAttribute tag ATTR_OPERATION ≠ some TYPE_MIGRATION
          ∧ extractAttribute tag ATTR_OPERATION ≠ some TYPE_QUERY)
        ∨ (extractAttribute tag ATTR_OPERATION = some TYPE_MIGRATION
            ∧ strFalsy (extractAttribute tag ATTR_FILE_PATH) = true)) := by
  have hmq : TYPE_MIGRATION ≠ TYPE_QUERY := by decide
  unfold supabaseAttrs
  cases hop : extractAttribute tag ATTR_OPERATION with
  | none => simp
  | some op =>
    by_cases hm : op = TYPE_MIGRATION
    · subst hm
      cases hfp : extractAttribute tag ATTR_FILE_PATH with
      | none => simp [strFalsy, hfp]
      | some v =>
        cases v with
        | nil => simp [strFalsy, hfp]
        | cons c fp => simp [strFalsy, hfp, hmq]
    · by_cases hq : op = TYPE_QUERY
      · subst hq
        simp [hm, hmq]
      · simp [hm, hq]

lemma screenAttrs_error_iff (J : Type) (jp : List Char → Option J) (tag : List Char)
    (base : ActionRecord J) :
    (∃ err, screenAttrs J jp tag base = .error err) ↔
      (strFalsy (extractAttribute tag ATTR_SCREEN_ID)
        || strFalsy (extractAttribute tag ATTR_SCREEN_NAME)
        || strFalsy (extractAttribute tag ATTR_SCREEN_TYPE)) = true := by
  simp only [screenAttrs]
  split <;> simp_all

lemma navigationAttrs_error_iff (J : Type) (jp : List Char → Option J) (tag : List Char)
    (base : ActionRecord J) :
    (∃ err, navigationAttrs J jp tag base = .error err) ↔
      (strFalsy (extractAttribute tag ATTR_FROM_SCREEN)
        || strFalsy (extractAttribute tag ATTR_TO_SCREEN)
        || strFalsy (extractAttribute tag ATTR_TRIGGER)
        || strFalsy (extractAttribute tag ATTR_NAVIGATION_TYPE)) = true := by
  simp only [navigationAttrs]
  split <;> simp_all

lemma componentAttrs_error_iff (J : Type) (tag : List Char) (base : ActionRecord J) :
    (∃ err, componentAttrs J tag base = .error err) ↔
      (strFalsy (extractAttribute tag ATTR_COMPONENT_NAME)
        || strFalsy (extractAttribute tag ATTR_COMPONENT_TYPE)) = true := by
  simp only [componentAttrs]
  split <;> simp_all

/-- Modelled from the amended claim's words: the type attribute selects a
recognized action variant and one of the variant's required attributes is
missing or empty (JS-falsy); for `supabase`, the operation is missing, empty
or unrecognized, or a migration lacks a usable `filePath`. -/
def RequiredAttributeFailure (tag : List Char) : Prop :=
  (extractAttribute tag ATTR_TYPE = some TYPE_NAVIGATION
      ∧ (strFalsy (extractAttribute tag ATTR_FROM_SCREEN)
          || strFalsy (extractAttribute tag ATTR_TO_SCREEN)
          || strFalsy (extractAttribute tag ATTR_TRIGGER)
          || strFalsy (extractAttribute tag ATTR_NAVIGATION_TYPE)) = true)
    ∨ (extractAttribute tag ATTR_TYPE = some TYPE_SCREEN
        ∧ (strFalsy (extractAttribute tag ATTR_SCREEN_ID)
            || strFalsy (extractAttribute tag ATTR_SCREEN_NAME)
            || strFalsy (extractAttribute tag ATTR_SCREEN_TYPE)) = true)
    ∨ (extractAttribute tag ATTR_TYPE = some TYPE_COMPONENT
        ∧ (strFalsy (extractAttribute tag ATTR_COMPONENT_NAME)
            || strFalsy (extractAttribute tag ATTR_COMPONENT_TYPE)) = true)
    ∨ (extractAttribute tag ATTR_TYPE = some TYPE_SUPABASE
        ∧ ((extractAttribute tag ATTR_OPERATION ≠ some TYPE_MIGRATION
              ∧ extractAttribute tag ATTR_OPERATION ≠ some TYPE_QUERY)
            ∨ (extractAttribute tag ATTR_OPERATION = some TYPE_MIGRATION
                ∧ strFalsy (extractAttribute tag ATTR_FILE_PATH) = true)))

/-- C4 (amended): the action-open tag parser throws exactly when the captured
tag satisfies `RequiredAttributeFailure` — a required attribute of a
recognized `navigation`, `screen`, `component` or `supabase` tag is missing
*or empty*.  (`file` tags and unknown types never make it throw; the
`TypeError` of claim C3 is raised later, at action close, not here.) -/
theorem action_open_tag_throw_characterization (J : Type) (jp : List Char → Option J)
    (input : List Char) (a e : Nat) :
    (∃ err, parseActionTag J jp input a e = .error err)
      ↔ RequiredAttributeFailure (strSlice input a (e + 1)) := by
  have d1 : TYPE_SUPABASE ≠ TYPE_NAVIGATION := by decide
  have d2 : TYPE_SUPABASE ≠ TYPE_SCREEN := by decide
  have d3 : TYPE_SUPABASE ≠ TYPE_COMPONENT := by decide
  have d4 : TYPE_FILE ≠ TYPE_NAVIGATION := by decide
  have d5 : TYPE_FILE ≠ TYPE_SCREEN := by decide
  have d6 : TYPE_FILE ≠ TYPE_COMPONENT := by decide
  have d7 : TYPE_SCREEN ≠ TYPE_NAVIGATION := by decide
  have d8 : TYPE_SCREEN ≠ TYPE_COMPONENT := by decide
  have d9 : TYPE_NAVIGATION ≠ TYPE_COMPONENT := by decide
  simp only [parseActionTag, RequiredAttributeFailure]
  by_cases h1 : extractAttribute (strSlice input a (e + 1)) ATTR_TYPE = some TYPE_SUPABASE
  · rw [if_pos h1, supabaseAttrs_error_iff]
    simp [h1, d1, d2, d3]
  · rw [if_neg h1]
    by_cases h2 : extractAttribute (strSlice input a (e + 1)) ATTR_TYPE = some TYPE_FILE
    · rw [if_pos h2]
      simp [h2, d4, d5, d6, (by decide : TYPE_FILE ≠ TYPE_SUPABASE)]
    · rw [if_neg h2]
      by_cases h3 : extractAttribute (strSlice input a (e + 1)) ATTR_TYPE = some TYPE_SCREEN
      · rw [if_pos h3, screenAttrs_error_iff]
        simp [h3, d7, d8, (by decide : TYPE_SCREEN ≠ TYPE_SUPABASE)]
      · rw [if_neg h3]
        by_cases h4 : extractAttribute (strSlice input a (e + 1)) ATTR_TYPE = some TYPE_NAVIGATION
        · rw [if_pos h4, navigationAttrs_error_iff]
          simp [h4, d9, (by decide : TYPE_NAVIGATION ≠ TYPE_SUPABASE),
            (by decide : TYPE_NAVIGATION ≠ TYPE_SCREEN)]
        · rw [if_neg h4]
          by_cases h5 : extractAttribute (strSlice input a (e + 1)) ATTR_TYPE = some TYPE_COMPONENT
          · rw [if_pos h5, componentAttrs_error_iff]
            simp [h5, (by decide : TYPE_COMPONENT ≠ TYPE_SUPABASE),
              (by decide : TYPE_COMPONENT ≠ TYPE_SCREEN),
              (by decide : TYPE_COMPONENT ≠ TYPE_NAVIGATION)]
          · rw [if_neg h5]
            simp [h1, h2, h3, h4, h5]

/-! JSON payload round trip (C7). -/

/-- C7: for a `screen` action-open tag whose required attributes are usable
and whose `props` attribute is a nonempty string, the record built for the
action-open event carries `props` equal to whatever the modelled `JSON.parse`
returns (`jp p = some v` gives `props = some v`); when the JSON is malformed
(`jp p = none`, i.e. `JSON.parse` throws), the field is simply absent and the
tag parser still succeeds.  The final conjunct states the analogous
malformed-JSON fact for the `params` attribute of a `navigation` tag. -/
theorem action_payload_json_round_trip (J : Type) (jp : List Char → Option J)
    (input : List Char) (a e : Nat) (p : List Char) (v : J)
    (hty : extractAttribute (strSlice input a (e + 1)) ATTR_TYPE = some TYPE_SCREEN)
    (hsid : strFalsy (extractAttribute (strSlice input a (e + 1)) ATTR_SCREEN_ID) = false)
    (hsn : strFalsy (extractAttribute (strSlice input a (e + 1)) ATTR_SCREEN_NAME) = false)
    (hst : strFalsy (extractAttribute (strSlice input a (e + 1)) ATTR_SCREEN_TYPE) = false)
    (hp : extractAttribute (strSlice input a (e + 1)) ATTR_PROPS = some p)
    (hpne : p ≠ []) :
    (jp p = some v → ∃ r, parseActionTag J jp input a e = .ok r ∧ r.props = some v)
      ∧ (jp p = none → ∃ r, parseActionTag J jp input a e = .ok r ∧ r.props = none)
      ∧ (∀ (input2 : List Char) (a2 e2 : Nat) (q : List Char),
          extractAttribute (strSlice input2 a2 (e2 + 1)) ATTR_TYPE = some TYPE_NAVIGATION →
          strFalsy (extractAttribute (strSlice input2 a2 (e2 + 1)) ATTR_FROM_SCREEN) = false →
          strFalsy (extractAttribute (strSlice input2 a2 (e2 + 1)) ATTR_TO_SCREEN) = false →
          strFalsy (extractAttribute (strSlice input2 a2 (e2 + 1)) ATTR_TRIGGER) = false →
          strFalsy (extractAttribute (strSlice input2 a2 (e2 + 1)) ATTR_NAVIGATION_TYPE) = false →
          extractAttribute (strSlice input2 a2 (e2 + 1)) ATTR_PARAMS = some q →
          q ≠ [] → jp q = none →
          ∃ r, parseActionTag J jp input2 a2 e2 = .ok r ∧ r.params = none) := by
  have hokScreen : ∀ (input' : List Char) (a' e' : Nat) (p' : List Char),
      extractAttribute (strSlice input' a' (e' + 1)) ATTR_TYPE = some TYPE_SCREEN →
      strFalsy (extractAttribute (strSlice input' a' (e' + 1)) ATTR_SCREEN_ID) = false →
      strFalsy (extractAttribute (strSlice input' a' (e' + 1)) ATTR_SCREEN_NAME) = false →
      strFalsy (extractAttribute (strSlice input' a' (e' + 1)) ATTR_SCREEN_TYPE) = false →
      extractAttribute (strSlice input' a' (e' + 1)) ATTR_PROPS = some p' →
      p' ≠ [] →
      ∃ r, parseActionTag J jp input' a' e' = .ok r ∧ r.props = jp p' := by
    intro input' a' e' p' hty' hsid' hsn' hst' hp' hpne'
    simp only [parseActionTag]
    rw [if_neg (by simp [hty']; decide), if_neg (by simp [hty']; decide), if_pos hty']
    simp only [screenAttrs, hsid', hsn', hst', Bool.false_or, Bool.or_self,
      Bool.false_eq_true, if_false]
    refine ⟨_, rfl, ?_⟩
    simp [jsonField, hp', hpne']
  refine ⟨?_, ?_, ?_⟩
  · intro hv
    obtain ⟨r, hr, hprops⟩ := hokScreen input a e p hty hsid hsn hst hp hpne
    exact ⟨r, hr, by rw [hprops, hv]⟩
  · intro hv
    obtain ⟨r, hr, hprops⟩ := hokScreen input a e p hty hsid hsn hst hp hpne
    exact ⟨r, hr, by rw [hprops, hv]⟩
  · intro input2 a2 e2 q hty2 hfs hts htr hnt hq hqne hv
    simp only [parseActionTag]
    rw [if_neg (by simp [hty2]; decide), if_neg (by simp [hty2]; decide),
      if_neg (by simp [hty2]; decide), if_pos hty2]
    simp only [navigationAttrs, hfs, hts, htr, hnt, Bool.false_or, Bool.or_self,
      Bool.false_eq_true, if_false]
    refine ⟨_, rfl, ?_⟩
    simp [jsonField, hq, hqne, hv]

/-- A `screen` action-open tag with a JSON `props` payload, for the witness. -/
def c7Tag : List Char :=
  "<boltAction type=\"screen\" screenId=\"s\" screenName=\"n\" screenType=\"page\" props=\"[1]\">".data

/-- Witness for the JSON round-trip theorem: with `JSON.parse` modelled as the
identity-like `fun s => some s`, the parsed record's `props` holds exactly the
attribute text. -/
theorem action_payload_json_round_trip_witness :
    ∃ r, parseActionTag (List Char) (fun s => some s) c7Tag 0 (c7Tag.length - 1) = .ok r
      ∧ r.props = some ['[', '1', ']'] :=
  (action_payload_json_round_trip (List Char) (fun s => some s) c7Tag 0 (c7Tag.length - 1)
    ['[', '1', ']'] ['[', '1', ']'] (by decide) (by decide) (by decide) (by decide)
    (by decide) (by decide)).1 rfl

/-! Passthrough scanning facts (C10). -/

lemma startsWithAt_quick_false (input : List Char) (i : Nat) (hi : i < input.length)
    (hne : input[i] ≠ '<') :
    startsWithAt BOLT_QUICK_ACTIONS_OPEN input i = false := by
  unfold startsWithAt
  rw [List.drop_eq_getElem_cons hi]
  have h1 : ('<' == input[i]) = false := beq_eq_false_iff_ne.mpr (Ne.symm hne)
  rw [show BOLT_QUICK_ACTIONS_OPEN = '<' :: "bolt-quick-actions>".data from rfl]
  simp [List.isPrefixOf, h1]

lemma parseStep_eq_mainStep (J : Type) (jp : List Char → Option J) (m input : List Char)
    (st : MessageState J)
    (hq : startsWithAt BOLT_QUICK_ACTIONS_OPEN input st.position = false) :
    parseStep J jp m input st = mainStep J jp m input st := by
  simp only [parseStep, hq, Bool.false_eq_true, if_false]

lemma mainStep_passthrough_char (J : Type) (jp : List Char → Option J) (m input : List Char)
    (st : MessageState J) (hA : st.insideArtifact = false)
    (hi : st.position < input.length) (hne : input[st.position] ≠ '<') :
    mainStep J jp m input st
      = .cont [input[st.position]] [] { st with position := st.position + 1 } := by
  have hg : ¬(input[st.position]? = some '<' ∧ input[st.position + 1]? ≠ some '/') := by
    rw [List.getElem?_eq_getElem hi]
    rintro ⟨h1, -⟩
    exact hne (by injection h1)
  simp only [mainStep, hA, Bool.false_eq_true, if_false]
  rw [if_neg hg, List.getElem?_eq_getElem hi]

/-- A run over a region with no `<` at or after the cursor, outside any
artifact: every character is passed through verbatim and the cursor lands at
the end of the input, with no callback fired. -/
lemma passthrough_loop (J : Type) (jp : List Char → Option J) (m input : List Char) :
    ∀ (fuel : Nat) (st : MessageState J),
      st.insideArtifact = false →
      st.position ≤ input.length →
      (∀ ch ∈ input.drop st.position, ch ≠ '<') →
      input.length - st.position ≤ fuel →
      parseLoop J jp m input fuel st
        = .ok (input.drop st.position, [], { st with position := input.length }) := by
  intro fuel
  induction fuel with
  | zero =>
    intro st hA hle hno hfuel
    have hpos : st.position = input.length := by omega
    simp only [parseLoop]
    rw [List.drop_eq_nil_of_le (by omega), ← hpos]
  | succ n ih =>
    intro st hA hle hno hfuel
    by_cases hlt : st.position < input.length
    · have hdrop : input.drop st.position = input[st.position] :: input.drop (st.position + 1) :=
        List.drop_eq_getElem_cons hlt
      have hne : input[st.position] ≠ '<' := hno input[st.position] (by rw [hdrop]; exact List.mem_cons_self _ _)
      have hstep : parseStep J jp m input st
          = .cont [input[st.position]] [] { st with position := st.position + 1 } := by
        rw [parseStep_eq_mainStep J jp m input st (startsWithAt_quick_false input st.position hlt hne)]
        exact mainStep_passthrough_char J jp m input st hA hlt hne
      simp only [parseLoop]
      rw [if_pos hlt]
      simp only [hstep]
      rw [ih { st with position := st.position + 1 } hA (by simpa using hlt)
        (by intro ch hch; exact hno ch (by rw [hdrop]; exact List.mem_cons_of_mem _ (by simpa using hch)))
        (by simp; omega)]
      rw [hdrop]
      rfl
    · have hpos : st.position = input.length := by omega
      simp only [parseLoop]
      rw [if_neg hlt, List.drop_eq_nil_of_le (by omega), ← hpos]

lemma scanTagGo_append (ts : List Char) (p : List Char) :
    ∀ (rest : List Char) (k : Nat),
      scanTagGo (p ++ ts) (p ++ rest) k = scanTagGo ts rest (k + p.length) := by
  induction p with
  | nil => intro rest k; simp
  | cons a p2 ih =>
    intro rest k
    simp only [List.cons_append, scanTagGo, List.append_eq, eq_self_iff_true, if_true]
    rw [ih rest (k + 1)]
    have harith : k + 1 + p2.length = k + (a :: p2).length := by
      simp [List.length_cons]
      omega
    rw [harith]

lemma mainStep_scan_advance (J : Type) (jp : List Char → Option J) (m input : List Char)
    (st : MessageState J) (k : Nat)
    (hA : st.insideArtifact = false)
    (hg1 : input[st.position]? = some '<')
    (hg2 : input[st.position + 1]? ≠ some '/')
    (hscan : scanTag input st.position = .advance k) :
    mainStep J jp m input st
      = .cont (strSlice input st.position (st.position + k)) []
          { st with position := st.position + k } := by
  simp only [mainStep, hA, Bool.false_eq_true, if_false]
  rw [if_pos ⟨hg1, hg2⟩, hscan]

/-- Unfolds exactly one `continue` iteration of `parseLoop`. -/
lemma parseLoop_succ_cont (J : Type) (jp : List Char → Option J) (m input : List Char)
    (fuel : Nat) (st : MessageState J) (out : List Char) (evs : List (ParseEvent J))
    (st1 : MessageState J) (o2 : List Char) (e2 : List (ParseEvent J)) (s2 : MessageState J)
    (hlt : st.position < input.length)
    (hs : parseStep J jp m input st = .cont out evs st1)
    (hr : parseLoop J jp m input fuel st1 = .ok (o2, e2, s2)) :
    parseLoop J jp m input (fuel + 1) st = .ok (out ++ o2, evs ++ e2, s2) := by
  simp only [parseLoop]
  rw [if_pos hlt]
  simp only [hs, hr]

/-- C10: outside any artifact, text that matches the literal marker
`<boltArtifact` whose next character is neither `>` nor a space, and likewise
text that diverges from the marker partway, is emitted verbatim as
passthrough output — no artifact is opened and no callback fires (the final
state keeps `insideArtifact = false` and the event trace is empty).  The
divergence case is stated for a split `ARTIFACT_TAG_OPEN = p ++ d :: q` with
the input `p ++ c :: s` differing from the marker at the character after `p`. -/
theorem container_open_lookalike_passthrough (J : Type) (jp : List Char → Option J)
    (m : List Char) :
    (∀ (c : Char) (s : List Char),
        c ≠ '>' → c ≠ ' ' → (∀ ch ∈ c :: s, ch ≠ '<') →
        parse J jp m (ARTIFACT_TAG_OPEN ++ c :: s) none
          = .ok (ARTIFACT_TAG_OPEN ++ c :: s, [],
              { position := (ARTIFACT_TAG_OPEN ++ c :: s).length }))
      ∧ (∀ (p : List Char) (d : Char) (q : List Char) (c : Char) (s : List Char),
          ARTIFACT_TAG_OPEN = p ++ d :: q → p ≠ [] → c ≠ d → c ≠ '<' → c ≠ '/' →
          (∀ ch ∈ s, ch ≠ '<') →
          startsWithAt BOLT_QUICK_ACTIONS_OPEN (p ++ c :: s) 0 = false →
          parse J jp m (p ++ c :: s) none
            = .ok (p ++ c :: s, [], { position := (p ++ c :: s).length })) := by
  have h13 : ARTIFACT_TAG_OPEN.length = 13 := by decide
  constructor
  · intro c s hc1 hc2 hno
    have hlen : (ARTIFACT_TAG_OPEN ++ c :: s).length = 13 + (s.length + 1) := by
      simp [h13]
    have hscan : scanTag (ARTIFACT_TAG_OPEN ++ c :: s) 0 = .advance 13 := by
      unfold scanTag
      rw [List.drop_zero]
      have happ := scanTagGo_append [] ARTIFACT_TAG_OPEN (c :: s) 0
      rw [List.append_nil] at happ
      rw [happ]
      simp only [scanTagGo]
      rw [if_pos ⟨hc1, hc2⟩, h13]
    have hstep : parseStep J jp m (ARTIFACT_TAG_OPEN ++ c :: s)
          (initialMessageState J)
        = .cont (strSlice (ARTIFACT_TAG_OPEN ++ c :: s) 0 (0 + 13)) []
            { initialMessageState J with position := 0 + 13 } := by
      rw [parseStep_eq_mainStep J jp m (ARTIFACT_TAG_OPEN ++ c :: s)
        (initialMessageState J) rfl]
      exact mainStep_scan_advance J jp m (ARTIFACT_TAG_OPEN ++ c :: s)
        (initialMessageState J) 13 rfl rfl
        (by rw [show (ARTIFACT_TAG_OPEN ++ c :: s)[(initialMessageState J).position + 1]?
              = some 'b' from rfl]
            decide)
        hscan
    have hslice : strSlice (ARTIFACT_TAG_OPEN ++ c :: s) 0 (0 + 13) = ARTIFACT_TAG_OPEN := by
      unfold strSlice
      rw [List.drop_zero]
      rw [show (0 + 13 - 0 : Nat) = ARTIFACT_TAG_OPEN.length from by rw [h13]]
      exact List.take_left _ _
    have hdrop13 : (ARTIFACT_TAG_OPEN ++ c :: s).drop 13 = c :: s := by
      rw [show (13 : Nat) = ARTIFACT_TAG_OPEN.length from h13.symm]
      exact List.drop_left _ _
    have hrest := passthrough_loop J jp m (ARTIFACT_TAG_OPEN ++ c :: s) (13 + (s.length + 1))
      { initialMessageState J with position := 0 + 13 } rfl
      (by rw [show ({ initialMessageState J with position := 0 + 13 } :
            MessageState J).position = 13 from rfl, hlen]
          omega)
      (by intro ch hch
          rw [show ({ initialMessageState J with position := 0 + 13 } :
            MessageState J).position = 13 from rfl, hdrop13] at hch
          exact hno ch hch)
      (by rw [show ({ initialMessageState J with position := 0 + 13 } :
            MessageState J).position = 13 from rfl, hlen]
          omega)
    rw [show ({ initialMessageState J with position := 0 + 13 } :
      MessageState J).position = 13 from rfl, hdrop13] at hrest
    unfold parse
    simp only [Option.getD_none]
    rw [show (ARTIFACT_TAG_OPEN ++ c :: s).length + 1 = (13 + (s.length + 1)) + 1 from by
      rw [hlen]]
    rw [parseLoop_succ_cont J jp m (ARTIFACT_TAG_OPEN ++ c :: s) (13 + (s.length + 1))
      (initialMessageState J) _ _ _ _ _ _
      (by rw [show (initialMessageState J).position = 0 from rfl, hlen]; omega)
      hstep hrest]
    rw [hslice]
    rfl
  · intro p d q c s htag hpne hcd hclt hcsl hno hq
    cases p with
    | nil => exact absurd rfl hpne
    | cons p0 prest =>
      rw [show ARTIFACT_TAG_OPEN = '<' :: "boltArtifact".data from rfl] at htag
      injection htag with h0 htagtail
      subst h0
      have htagfull : ARTIFACT_TAG_OPEN = ('<' :: prest) ++ d :: q := by
        rw [show ARTIFACT_TAG_OPEN = '<' :: "boltArtifact".data from rfl, htagtail]
        simp
      have hlen : (('<' :: prest) ++ c :: s).length
          = (('<' :: prest).length + 1) + s.length := by
        simp
        omega
      have hscan : scanTag (('<' :: prest) ++ c :: s) 0
          = .advance (('<' :: prest).length + 1) := by
        unfold scanTag
        rw [List.drop_zero]
        have happ := scanTagGo_append (d :: q) ('<' :: prest) (c :: s) 0
        rw [← htagfull] at happ
        rw [happ]
        simp only [scanTagGo]
        rw [if_neg hcd, Nat.zero_add]
      have hg2 : (('<' :: prest) ++ c :: s)[(initialMessageState J).position + 1]?
          ≠ some '/' := by
        rw [show ((initialMessageState J).position + 1 : Nat) = 1 from rfl]
        cases prest with
        | nil =>
          simp only [List.cons_append, List.nil_append]
          intro hcon
          simp at hcon
          exact hcsl hcon
        | cons p1 prest2 =>
          injection htagtail with h1 _
          simp only [List.cons_append]
          intro hcon
          simp at hcon
          subst hcon
          exact absurd h1 (by decide)
      have hstep : parseStep J jp m (('<' :: prest) ++ c :: s) (initialMessageState J)
          = .cont (strSlice (('<' :: prest) ++ c :: s) 0 (0 + (('<' :: prest).length + 1))) []
              { initialMessageState J with position := 0 + (('<' :: prest).length + 1) } := by
        rw [parseStep_eq_mainStep J jp m (('<' :: prest) ++ c :: s) (initialMessageState J) hq]
        exact mainStep_scan_advance J jp m (('<' :: prest) ++ c :: s) (initialMessageState J)
          (('<' :: prest).length + 1) rfl
          (by show (('<' :: prest) ++ c :: s)[(0 : Nat)]? = some '<'
              simp)
          hg2 hscan
      have hslice : strSlice (('<' :: prest) ++ c :: s) 0 (0 + (('<' :: prest).length + 1))
          = ('<' :: prest) ++ [c] := by
        unfold strSlice
        rw [List.drop_zero]
        rw [show (0 + (('<' :: prest).length + 1) - 0 : Nat)
          = ('<' :: prest).length + 1 from by omega]
        rw [List.take_append]
        simp
      have hdropP : (('<' :: prest) ++ c :: s).drop (('<' :: prest).length + 1) = s := by
        rw [List.drop_append]
        simp
      have hrest := passthrough_loop J jp m (('<' :: prest) ++ c :: s)
        ((('<' :: prest).length + 1) + s.length)
        { initialMessageState J with position := 0 + (('<' :: prest).length + 1) } rfl
        (by rw [show ({ initialMessageState J with
              position := 0 + (('<' :: prest).length + 1) } : MessageState J).position
              = ('<' :: prest).length + 1 from by simp, hlen]
            omega)
        (by intro ch hch
            rw [show ({ initialMessageState J with
              position := 0 + (('<' :: prest).length + 1) } : MessageState J).position
              = ('<' :: prest).length + 1 from by simp, hdropP] at hch
            exact hno ch hch)
        (by rw [show ({ initialMessageState J with
              position := 0 + (('<' :: prest).length + 1) } : MessageState J).position
              = ('<' :: prest).length + 1 from by simp, hlen]
            omega)
      rw [show ({ initialMessageState J with
        position := 0 + (('<' :: prest).length + 1) } : MessageState J).position
        = ('<' :: prest).length + 1 from by simp, hdropP] at hrest
      unfold parse
      simp only [Option.getD_none]
      rw [show (('<' :: prest) ++ c :: s).length + 1
          = ((('<' :: prest).length + 1) + s.length) + 1 from by rw [hlen]]
      rw [parseLoop_succ_cont J jp m (('<' :: prest) ++ c :: s)
        ((('<' :: prest).length + 1) + s.length)
        (initialMessageState J) _ _ _ _ _ _
        (by rw [show (initialMessageState J).position = 0 from rfl, hlen]; omega)
        hstep hrest]
      rw [hslice, List.append_assoc]
      rfl

/-- The suffix of the C10 example `<boltArtifactX attr="v">` after the bad
next character. -/
def c10Tail : List Char := " attr=\"v\">".data

/-- Witness for the lookalike-passthrough theorem at the example input
`<boltArtifactX attr="v">`. -/
theorem container_open_lookalike_passthrough_witness :
    parse Unit noJson MSG_ID (ARTIFACT_TAG_OPEN ++ 'X' :: c10Tail) none
      = .ok (ARTIFACT_TAG_OPEN ++ 'X' :: c10Tail, [],
          { position := (ARTIFACT_TAG_OPEN ++ 'X' :: c10Tail).length }) :=
  (container_open_lookalike_passthrough Unit noJson MSG_ID).1 'X' c10Tail
    (by decide) (by decide) (by decide)

end MessageParser
